import Mathlib

/-!
# golert: the alert transition engine and its probes

A shallow embedding of `alerting.go`.  The program runs a list of HTTP probes, keeps the last
status of every probe in a bolt store under the SHA-1 of `"<method> <url>"`, and sends a text
message when that status changes.

State is passed explicitly: a `World` holds the `results` bucket of `results.db`, the log of
store writes, the log of messages sent, and the log of requests issued.  A run either ends with
a world or dies of a nil-pointer panic, in which case the world at that moment is kept.  The
answers of the network, the process environment and the verdict of `url.Parse` on a url text
are inputs.  Opening the store is taken to succeed, as the program itself takes it to.
-/

namespace Golert

/-! ## SHA-1, as `crypto/sha1` computes it over the bytes of a string

Words are natural numbers below `2 ^ 32`; every addition and rotation is reduced modulo
`2 ^ 32`. -/

/-- Running state of `crypto/sha1`: the five 32-bit chaining words. -/
structure Digest where
  h0 : Nat
  h1 : Nat
  h2 : Nat
  h3 : Nat
  h4 : Nat
  deriving DecidableEq, Repr

/-- The modulus of 32-bit arithmetic. -/
def mask32 : Nat := 2 ^ 32

/-- Go's `bits.RotateLeft32`. -/
def rotl32 (x n : Nat) : Nat :=
  ((x <<< n) ||| (x >>> (32 - n))) % mask32

/-- Bitwise complement of a 32-bit word. -/
def not32 (x : Nat) : Nat := (mask32 - 1) ^^^ (x % mask32)

/-- The initial chaining words of SHA-1. -/
def sha1Init : Digest :=
  { h0 := 0x67452301, h1 := 0xEFCDAB89, h2 := 0x98BADCFE, h3 := 0x10325476, h4 := 0xC3D2E1F0 }

/-- The big-endian 32-bit word at offset `j` of a block. -/
def beWord (p : List Nat) (j : Nat) : Nat :=
  (p.getD j 0 <<< 24) ||| (p.getD (j + 1) 0 <<< 16) ||| (p.getD (j + 2) 0 <<< 8) ||| p.getD (j + 3) 0

/-- The eighty-word message schedule of one 64-byte block. -/
def schedule (p : List Nat) : Array Nat :=
  let w0 : Array Nat := (List.range 16).foldl (fun w i => w.push (beWord p (i * 4))) #[]
  (List.range 64).foldl
    (fun w k =>
      let i := k + 16
      w.push (rotl32 (w.getD (i - 3) 0 ^^^ w.getD (i - 8) 0 ^^^ w.getD (i - 14) 0 ^^^ w.getD (i - 16) 0) 1))
    w0

/-- The round function of round `i`. -/
def roundF (i b c d : Nat) : Nat :=
  if i < 20 then (b &&& c) ||| (not32 b &&& d)
  else if i < 40 then b ^^^ c ^^^ d
  else if i < 60 then ((b ||| c) &&& d) ||| (b &&& c)
  else b ^^^ c ^^^ d

/-- The round constant of round `i`. -/
def roundK (i : Nat) : Nat :=
  if i < 20 then 0x5A827999
  else if i < 40 then 0x6ED9EBA1
  else if i < 60 then 0x8F1BBCDC
  else 0xCA62C1D6

/-- One of the eighty rounds. -/
def sha1Round (w : Array Nat) (s : Digest) (i : Nat) : Digest :=
  let t := (rotl32 s.h0 5 + roundF i s.h1 s.h2 s.h3 + s.h4 + w.getD i 0 + roundK i) % mask32
  { h0 := t, h1 := s.h0, h2 := rotl32 s.h1 30, h3 := s.h2, h4 := s.h3 }

/-- The compression of one 64-byte block into the chaining words. -/
def sha1Block (dig : Digest) (p : List Nat) : Digest :=
  let w := schedule p
  let r := (List.range 80).foldl (sha1Round w) dig
  { h0 := (dig.h0 + r.h0) % mask32, h1 := (dig.h1 + r.h1) % mask32, h2 := (dig.h2 + r.h2) % mask32,
    h3 := (dig.h3 + r.h3) % mask32, h4 := (dig.h4 + r.h4) % mask32 }

/-- The `n` low bytes of `x`, most significant first. -/
def beBytes (n x : Nat) : List Nat :=
  (List.range n).map fun i => (x >>> (8 * (n - 1 - i))) % 256

/-- The padding of a message of `len` bytes: `0x80`, zeros, and the bit length on 8 bytes. -/
def sha1Pad (len : Nat) : List Nat :=
  let t := if len % 64 < 56 then 56 - len % 64 else 64 + 56 - len % 64
  0x80 :: List.replicate (t - 1) 0 ++ beBytes 8 ((len <<< 3) % 2 ^ 64)

/-- The 20-byte SHA-1 digest of a byte string. -/
def sha1Sum (msg : List Nat) : List Nat :=
  let p := msg ++ sha1Pad msg.length
  let d := (List.range (p.length / 64)).foldl (fun d i => sha1Block d ((p.drop (64 * i)).take 64)) sha1Init
  beBytes 4 d.h0 ++ beBytes 4 d.h1 ++ beBytes 4 d.h2 ++ beBytes 4 d.h3 ++ beBytes 4 d.h4

/-- Lines 85-89: the SHA-1 digest of the UTF-8 bytes of `key_string`. -/
def getTestKey (key_string : String) : List Nat :=
  sha1Sum (key_string.toUTF8.data.toList.map UInt8.toNat)

/-! ## Data model (`alerting.go`, lines 34-49) -/

/-- Line 34. -/
def TEST_PASS : String := "pass"

/-- Line 35. -/
def TEST_FAIL : String := "fail"

/-- One entry of a probe's `parameters` list. -/
structure AlertParameters where
  Key : String
  Value : String
  EnvVar : Bool
  deriving DecidableEq, Repr

/-- One probe definition as decoded from `request_tests.json`. -/
structure AlertTest where
  Url : String
  StatusCode : Int
  Parameters : List AlertParameters
  Method : String
  BasicAuth : Bool
  deriving DecidableEq, Repr

/-! ## The process environment -/

/-- The process environment: the `NAME=value` pairs, first match wins. -/
abbrev Environ := List (String × String)

/-- Go's `os.Getenv`: the value of the variable, or the empty string when it is not set. -/
def Getenv (env : Environ) (name : String) : String :=
  match env.lookup name with
  | some v => v
  | none => ""

/-- Line 20. -/
def API_SECRET (env : Environ) : String := Getenv env "GOLERT_API_SECRET"

/-- Line 21. -/
def API_USER (env : Environ) : String := Getenv env "GOLERT_API_USER"

/-! ## The bolt store

`results.db` holds at most one bucket that this program touches, `"results"`.  A bucket maps
byte-string keys to byte-string values.  `bolt.Open` creates the file when it is missing, and a
file created that way has no bucket at all; `Tx.Bucket` answers `nil` for a bucket that does not
exist, and `Tx.CreateBucketIfNotExists` is the only call here that creates one. -/

/-- Contents of one bolt bucket. -/
abbrev Bucket := List (List Nat × String)

/-- Bolt's `Bucket.Get` on an existing bucket: `none` stands for the `nil` slice of a missing key. -/
def Bucket.Get (b : Bucket) (key : List Nat) : Option String :=
  b.lookup key

/-- Bolt's `Bucket.Put`: overwrite the value of `key`, or add the pair when the key is new. -/
def Bucket.Put : Bucket → List Nat → String → Bucket
  | [], key, value => [(key, value)]
  | (k, v) :: rest, key, value =>
    if k = key then (key, value) :: rest else (k, v) :: Bucket.Put rest key value

/-- Go's `url.Values`, a map from a name to its list of values. -/
abbrev Values := List (String × List String)

/-- Go's `Values.Set`: the name is bound to the one-element list holding `value`. -/
def Values.Set : Values → String → String → Values
  | [], key, value => [(key, [value])]
  | (k, vs) :: rest, key, value =>
    if k = key then (key, [value]) :: rest else (k, vs) :: Values.Set rest key value

/-- The list bound to a name in a `url.Values`, when there is one. -/
def Values.lookupAll (v : Values) (key : String) : Option (List String) :=
  v.lookup key

/-- What a probe hands to `http.Client.Do`. -/
structure HttpRequest where
  method : String
  url : String
  form : Values
  basicAuth : Option (String × String)
  deriving DecidableEq, Repr

/-- Everything outside the process that the program reads or changes. -/
structure World where
  /-- The `"results"` bucket of `results.db`; `none` while the bucket has not been created. -/
  results : Option Bucket
  /-- The `(key, value)` pairs given to `setResultInKVStore`, oldest first. -/
  writes : List (List Nat × String)
  /-- The `msg` arguments given to `sendAlertingMessage`, oldest first. -/
  sent : List String
  /-- The probe requests handed to `client.Do`, oldest first. -/
  requests : List HttpRequest
  deriving DecidableEq, Repr

/-- The world of a first run: `results.db` has just been created and holds no bucket. -/
def World.fresh : World :=
  { results := none, writes := [], sent := [], requests := [] }

/-- The nil-pointer dereferences the program can run into. -/
inductive Fault where
  /-- `b.Get(key)` with `b == nil` in `getPreviousResultFromKVStore` (line 77). -/
  | nilBucket
  /-- A use of `req` with `req == nil`, after `http.NewRequest` has rejected the url text:
  `req.SetBasicAuth` or `client.Do(req)` in `performGetRequest` (lines 133, 144), and
  `req.Form = form` in `performPostRequest` (line 167). -/
  | nilRequest
  /-- `res.StatusCode` with `res == nil` in `performPostRequest` (line 177). -/
  | nilResponse
  deriving DecidableEq, Repr

/-- A run that died of a panic: the fault, and the world as it was at that moment. -/
structure Crash where
  fault : Fault
  world : World
  deriving DecidableEq, Repr

/-- What `client.Do` gives back for a probe: a response with its status code, or a transport
failure, for which Go returns a `nil` response and a non-nil error. -/
inductive Reply where
  | response (StatusCode : Int)
  | failure (err : String)
  deriving DecidableEq, Repr

/-! ## The store accessors (lines 56-89) -/

/-- Lines 57-67: the bucket is created when missing, then the key is put. -/
def setResultInKVStore (key : List Nat) (value : String) (w : World) : World :=
  { w with
    results := some (Bucket.Put (w.results.getD []) key value)
    writes := w.writes ++ [(key, value)] }

/-- Lines 71-81: `tx.Bucket` is `nil` when the bucket is missing and `b.Get` then dereferences
it; otherwise the stored bytes are returned as a string, `""` for a missing key. -/
def getPreviousResultFromKVStore (key : List Nat) (w : World) : Except Crash String :=
  match w.results with
  | none => .error { fault := .nilBucket, world := w }
  | some b => .ok ((b.Get key).getD "")

/-! ## Notification (lines 236-251) -/

/-- Lines 236-251: one SMS whose body is `"GOLERT ALERTING: " ++ msg`; the log keeps `msg`. -/
def sendAlertingMessage (msg : String) (w : World) : World :=
  { w with sent := w.sent ++ [msg] }

/-! ## The transition engine (lines 182-232) -/

/-- Lines 200-207; `err` is `none` for Go's `nil`, else the text of the error. -/
def checkError (result_string : String) (err : Option String) (w : World) : Except Crash World :=
  let key := getTestKey result_string
  match err with
  | none => .ok w
  | some e => do
    let prev ← getPreviousResultFromKVStore key w
    if prev ≠ TEST_FAIL then
      .ok (sendAlertingMessage e (setResultInKVStore key TEST_FAIL w))
    else .ok w

/-- Lines 211-220. -/
def setError (result_string : String) (msg : String) (w : World) : Except Crash World :=
  let key := getTestKey result_string
  do
    let prev ← getPreviousResultFromKVStore key w
    if prev ≠ TEST_FAIL then
      .ok (sendAlertingMessage msg (setResultInKVStore key TEST_FAIL w))
    else .ok w

/-- Lines 224-232. -/
def setPass (result_string : String) (msg : String) (w : World) : Except Crash World :=
  let key := getTestKey result_string
  do
    let prev ← getPreviousResultFromKVStore key w
    if prev = TEST_FAIL then
      .ok (sendAlertingMessage msg (setResultInKVStore key TEST_PASS w))
    else .ok w

/-- Go's `%d` verb on an `int`: decimal digits, a leading `-` for a negative number. -/
def fmtInt (n : Int) : String :=
  match n with
  | Int.ofNat m => Nat.repr m
  | Int.negSucc m => "-" ++ Nat.repr (m + 1)

/-- Lines 182-196. -/
def checkResult (result_string : String) (received_code expected_code : Int) (w : World) :
    Except Crash World :=
  if received_code ≠ expected_code then
    setError result_string
      (result_string ++ " returned " ++ fmtInt received_code ++ ", expected " ++ fmtInt expected_code) w
  else
    setPass result_string (result_string ++ " is now passing") w

/-! ## Probe execution (lines 107-178) -/

/-- Lines 120-129: the url, a `?`, then `key=value&` for each parameter in turn. -/
def getUrl (env : Environ) (test : AlertTest) : String :=
  test.Parameters.foldl
    (fun get_url param =>
      let value := if param.EnvVar then Getenv env param.Value else param.Value
      get_url ++ (param.Key ++ "=" ++ value ++ "&"))
    (test.Url ++ "?")

/-- Lines 156-165: the form filled by one `Set` for each parameter in turn. -/
def postForm (env : Environ) (test : AlertTest) : Values :=
  test.Parameters.foldl
    (fun form param =>
      let value := if param.EnvVar then Getenv env param.Value else param.Value
      Values.Set form param.Key value)
    []

/-- The credentials attached by `req.SetBasicAuth` when the probe asks for them. -/
def basicAuthOf (env : Environ) (test : AlertTest) : Option (String × String) :=
  if test.BasicAuth then some (API_USER env, API_SECRET env) else none

/-- Lines 119-151.  `parses` tells whether `url.Parse` accepts a url text: `http.NewRequest`
hands back a `nil` request when it does not, the error is dropped (line 130), and the first use
of the request panics.  `reply` is what `client.Do` returns for a request that was built. -/
def performGetRequest (parses : String → Bool) (env : Environ) (test : AlertTest)
    (reply : Reply) (w : World) : Except Crash World :=
  let get_url := getUrl env test
  if parses get_url then
    let req : HttpRequest :=
      { method := "GET", url := get_url, form := [], basicAuth := basicAuthOf env test }
    let result_string := test.Method ++ " " ++ test.Url
    let w := { w with requests := w.requests ++ [req] }
    match reply with
    | .failure err => checkError result_string (some err) w
    | .response code => checkResult result_string code test.StatusCode w
  else .error { fault := .nilRequest, world := w }

/-- Lines 155-178.  When `url.Parse` rejects the url, `req` is `nil` and `req.Form = form`
panics (line 167).  The error of `client.Do` is dropped, so after a transport failure `res` is
`nil` and reading `res.StatusCode` panics (line 177). -/
def performPostRequest (parses : String → Bool) (env : Environ) (test : AlertTest)
    (reply : Reply) (w : World) : Except Crash World :=
  let form := postForm env test
  if parses test.Url then
    let req : HttpRequest :=
      { method := "POST", url := test.Url, form := form, basicAuth := basicAuthOf env test }
    let w := { w with requests := w.requests ++ [req] }
    let result_string := test.Method ++ " " ++ test.Url
    match reply with
    | .failure _ => .error { fault := .nilResponse, world := w }
    | .response code => checkResult result_string code test.StatusCode w
  else .error { fault := .nilRequest, world := w }

/-- Lines 107-115; every probe comes with the reply the network gives to its request, should
the request be built. -/
def runTests (parses : String → Bool) (env : Environ) :
    List (AlertTest × Reply) → World → Except Crash World
  | [], w => .ok w
  | (test, reply) :: rest, w =>
    if test.Method = "GET" then
      match performGetRequest parses env test reply w with
      | .ok w1 => runTests parses env rest w1
      | .error c => .error c
    else if test.Method = "POST" then
      match performPostRequest parses env test reply w with
      | .ok w1 => runTests parses env rest w1
      | .error c => .error c
    else runTests parses env rest w

/-! ## Observations used by the statements -/

/-- The status stored for a probe identity: `none` when its key has no entry, which is also the
case while the bucket itself does not exist. -/
def storedStatus (w : World) (result_string : String) : Option String :=
  match w.results with
  | none => none
  | some b => b.Get (getTestKey result_string)

/-- A failing observation of a probe: a status mismatch, reported through `setError` with its
message, or a transport error, reported through `checkError` with the error text. -/
inductive FailOutcome where
  | mismatch (msg : String)
  | transport (err : String)
  deriving DecidableEq, Repr

/-- Hand one failing observation to the transition engine. -/
def observeFail (result_string : String) : FailOutcome → World → Except Crash World
  | .mismatch msg, w => setError result_string msg w
  | .transport err, w => checkError result_string (some err) w

/-- Hand a run of failing observations to the transition engine, one after the other. -/
def observeFails (result_string : String) : List FailOutcome → World → Except Crash World
  | [], w => .ok w
  | o :: os, w =>
    match observeFail result_string o w with
    | .ok w1 => observeFails result_string os w1
    | .error c => .error c

/-- The probe of the end-to-end scenario. -/
def healthProbe : AlertTest :=
  { Url := "https://x/health", StatusCode := 200, Parameters := [], Method := "GET",
    BasicAuth := false }

/-- The GET request a probe issues. -/
def getRequestOf (env : Environ) (test : AlertTest) : HttpRequest :=
  { method := "GET", url := getUrl env test, form := [], basicAuth := basicAuthOf env test }

/-- One failing and then one passing observation of the same identity, `n` times over. -/
def alternate (result_string failMsg passMsg : String) : Nat → World → Except Crash World
  | 0, w => .ok w
  | n + 1, w =>
    match setError result_string failMsg w with
    | .error c => .error c
    | .ok w1 =>
      match setPass result_string passMsg w1 with
      | .error c => .error c
      | .ok w2 => alternate result_string failMsg passMsg n w2

/-- The value the specification gives a parameter: the value of the environment variable named
by `Value` when `EnvVar` is set, the empty string when that variable is unset, and `Value`
itself when `EnvVar` is not set. -/
def specResolvedValue (env : Environ) (p : AlertParameters) : String :=
  match p.EnvVar with
  | true =>
    match env.lookup p.Value with
    | some v => v
    | none => ""
  | false => p.Value

/-- The query the specification describes: `key=value&` for each parameter, in order. -/
def specQuery (env : Environ) : List AlertParameters → String
  | [] => ""
  | p :: ps => p.Key ++ "=" ++ specResolvedValue env p ++ "&" ++ specQuery env ps

/-- The last parameter of a list that carries a given name, when there is one. -/
def lastWithKey : List AlertParameters → String → Option AlertParameters
  | [], _ => none
  | p :: ps, k =>
    match lastWithKey ps k with
    | some q => some q
    | none => if p.Key = k then some p else none

/-- The url `https://x/` followed by 161 letters, `b` where `v` holds and `a` elsewhere. -/
def abUrl (v : Fin 161 → Bool) : String :=
  "https://x/" ++ String.mk (List.ofFn fun i => if v i then 'b' else 'a')

/-! ## The bucket as a map -/

theorem Bucket.Get_Put_same (b : Bucket) (key : List Nat) (value : String) :
    (Bucket.Put b key value).Get key = some value := by
  induction b with
  | nil => simp [Bucket.Put, Bucket.Get, List.lookup]
  | cons e rest ih =>
    obtain ⟨k, v⟩ := e
    by_cases h : k = key
    · simp [Bucket.Put, Bucket.Get, List.lookup, h]
    · have h2 : (key == k) = false := by simpa using fun h3 => h h3.symm
      simp only [Bucket.Get] at ih
      simp [Bucket.Put, Bucket.Get, List.lookup, h, h2, ih]

theorem Bucket.Get_Put_other (b : Bucket) (key other : List Nat) (value : String)
    (hne : other ≠ key) : (Bucket.Put b key value).Get other = b.Get other := by
  induction b with
  | nil =>
    have h2 : (other == key) = false := by simpa using hne
    simp [Bucket.Put, Bucket.Get, List.lookup, h2]
  | cons e rest ih =>
    obtain ⟨k, v⟩ := e
    simp only [Bucket.Get] at ih
    by_cases h : k = key
    · subst h
      have h2 : (other == k) = false := by simpa using hne
      simp [Bucket.Put, Bucket.Get, List.lookup, h2]
    · by_cases h3 : other = k
      · subst h3
        simp [Bucket.Put, Bucket.Get, List.lookup, h]
      · have h4 : (other == k) = false := by simpa using h3
        simp [Bucket.Put, Bucket.Get, List.lookup, h, h4, ih]

/-! ## The transition engine on a store whose bucket exists -/

theorem setError_of_bucket (result_string msg : String) (w : World) (b : Bucket)
    (hb : w.results = some b) :
    setError result_string msg w =
      if b.Get (getTestKey result_string) = some TEST_FAIL then .ok w
      else .ok (sendAlertingMessage msg (setResultInKVStore (getTestKey result_string) TEST_FAIL w)) := by
  cases hg : b.Get (getTestKey result_string) with
  | none => simp [setError, getPreviousResultFromKVStore, hb, hg, TEST_FAIL, bind, Except.bind]
  | some v =>
    by_cases hv : v = "fail"
    · simp [setError, getPreviousResultFromKVStore, hb, hg, hv, TEST_FAIL, bind, Except.bind]
    · simp [setError, getPreviousResultFromKVStore, hb, hg, hv, TEST_FAIL, bind, Except.bind]

theorem checkError_of_bucket (result_string err : String) (w : World) (b : Bucket)
    (hb : w.results = some b) :
    checkError result_string (some err) w =
      if b.Get (getTestKey result_string) = some TEST_FAIL then .ok w
      else .ok (sendAlertingMessage err (setResultInKVStore (getTestKey result_string) TEST_FAIL w)) := by
  cases hg : b.Get (getTestKey result_string) with
  | none => simp [checkError, getPreviousResultFromKVStore, hb, hg, TEST_FAIL, bind, Except.bind]
  | some v =>
    by_cases hv : v = "fail"
    · simp [checkError, getPreviousResultFromKVStore, hb, hg, hv, TEST_FAIL, bind, Except.bind]
    · simp [checkError, getPreviousResultFromKVStore, hb, hg, hv, TEST_FAIL, bind, Except.bind]

theorem setPass_of_bucket (result_string msg : String) (w : World) (b : Bucket)
    (hb : w.results = some b) :
    setPass result_string msg w =
      if b.Get (getTestKey result_string) = some TEST_FAIL then
        .ok (sendAlertingMessage msg (setResultInKVStore (getTestKey result_string) TEST_PASS w))
      else .ok w := by
  cases hg : b.Get (getTestKey result_string) with
  | none => simp [setPass, getPreviousResultFromKVStore, hb, hg, TEST_FAIL, bind, Except.bind]
  | some v =>
    by_cases hv : v = "fail"
    · simp [setPass, getPreviousResultFromKVStore, hb, hg, hv, TEST_FAIL, bind, Except.bind]
    · simp [setPass, getPreviousResultFromKVStore, hb, hg, hv, TEST_FAIL, bind, Except.bind]

/-- A write leaves every other key as it was, deletes nothing, and binds the written key. -/
theorem setResultInKVStore_frame (key : List Nat) (value : String) (w : World) :
    ∃ b, (setResultInKVStore key value w).results = some b ∧
      b.Get key = some value ∧
      (∀ other, other ≠ key → b.Get other = (w.results.getD []).Get other) ∧
      (∀ other, (w.results.getD []).Get other ≠ none → b.Get other ≠ none) := by
  refine ⟨Bucket.Put (w.results.getD []) key value, rfl, Bucket.Get_Put_same _ _ _,
    fun other h => Bucket.Get_Put_other _ _ _ _ h, ?_⟩
  intro other h
  by_cases ho : other = key
  · subst ho
    simp [Bucket.Get_Put_same]
  · rw [Bucket.Get_Put_other _ _ _ _ ho]
    exact h

/-- On a store whose bucket exists, a failing observation notifies exactly when the stored
status is not `fail`, and then stores `fail`; otherwise the world is left as it was. -/
theorem observeFail_of_bucket (result_string : String) (o : FailOutcome) (w : World) (b : Bucket)
    (hb : w.results = some b) :
    ∃ w1, observeFail result_string o w = .ok w1 ∧
      (storedStatus w result_string = some TEST_FAIL → w1 = w) ∧
      (storedStatus w result_string ≠ some TEST_FAIL →
        w1.sent = w.sent ++ [match o with | .mismatch m => m | .transport e => e] ∧
        w1.writes = w.writes ++ [(getTestKey result_string, TEST_FAIL)] ∧
        w1.results = some (Bucket.Put b (getTestKey result_string) TEST_FAIL) ∧
        w1.requests = w.requests) := by
  have hs : storedStatus w result_string = b.Get (getTestKey result_string) := by
    simp [storedStatus, hb]
  cases o with
  | mismatch m =>
    by_cases h : b.Get (getTestKey result_string) = some TEST_FAIL
    · exact ⟨w, by simp [observeFail, setError_of_bucket _ _ _ _ hb, h], fun _ => rfl,
        fun hc => absurd (hs.trans h) hc⟩
    · refine ⟨sendAlertingMessage m (setResultInKVStore (getTestKey result_string) TEST_FAIL w),
        by simp only [observeFail, setError_of_bucket _ _ _ _ hb, h, if_false],
        fun hc => absurd (hs.symm.trans hc) h, fun _ => ?_⟩
      simp [sendAlertingMessage, setResultInKVStore, hb]
  | transport e =>
    by_cases h : b.Get (getTestKey result_string) = some TEST_FAIL
    · exact ⟨w, by simp [observeFail, checkError_of_bucket _ _ _ _ hb, h], fun _ => rfl,
        fun hc => absurd (hs.trans h) hc⟩
    · refine ⟨sendAlertingMessage e (setResultInKVStore (getTestKey result_string) TEST_FAIL w),
        by simp only [observeFail, checkError_of_bucket _ _ _ _ hb, h, if_false],
        fun hc => absurd (hs.symm.trans hc) h, fun _ => ?_⟩
      simp [sendAlertingMessage, setResultInKVStore, hb]

/-- On a store whose bucket exists, a passing observation notifies exactly when the stored
status is `fail`, and then stores `pass`; otherwise the world is left as it was. -/
theorem setPass_transition_of_bucket (result_string msg : String) (w : World) (b : Bucket)
    (hb : w.results = some b) :
    ∃ w1, setPass result_string msg w = .ok w1 ∧
      (storedStatus w result_string ≠ some TEST_FAIL → w1 = w) ∧
      (storedStatus w result_string = some TEST_FAIL →
        w1.sent = w.sent ++ [msg] ∧
        w1.writes = w.writes ++ [(getTestKey result_string, TEST_PASS)] ∧
        w1.results = some (Bucket.Put b (getTestKey result_string) TEST_PASS) ∧
        w1.requests = w.requests) := by
  have hs : storedStatus w result_string = b.Get (getTestKey result_string) := by
    simp [storedStatus, hb]
  by_cases h : b.Get (getTestKey result_string) = some TEST_FAIL
  · refine ⟨sendAlertingMessage msg (setResultInKVStore (getTestKey result_string) TEST_PASS w),
      by simp only [setPass_of_bucket _ _ _ _ hb, h, if_true],
      fun hc => absurd (hs.trans h) hc, fun _ => ?_⟩
    simp [sendAlertingMessage, setResultInKVStore, hb]
  · exact ⟨w, by simp [setPass_of_bucket _ _ _ _ hb, h], fun _ => rfl,
      fun hc => absurd (hs.symm.trans hc) h⟩

/-! ## C1 to C4: the transition engine -/

/-- C1, evaluated where it fails: on the store of a first run the probe has no stored status,
yet a failing observation (through `setError` or through `checkError`) sends no notification,
because the lookup panics on the missing bucket; a passing observation panics as well. -/
theorem C1_first_failure_on_fresh_store_sends_nothing (result_string msg err : String) :
    storedStatus World.fresh result_string = none ∧
    setError result_string msg World.fresh =
      .error { fault := .nilBucket, world := World.fresh } ∧
    checkError result_string (some err) World.fresh =
      .error { fault := .nilBucket, world := World.fresh } ∧
    setPass result_string msg World.fresh =
      .error { fault := .nilBucket, world := World.fresh } ∧
    World.fresh.sent = [] :=
  ⟨rfl, rfl, rfl, rfl, rfl⟩

/-- C2, evaluated where it fails: on the store of a first run a failing observation never
completes, and the store it leaves behind has no entry for the probe and has seen no write. -/
theorem C2_first_failure_on_fresh_store_is_not_stored (result_string msg : String) :
    (∀ w1, setError result_string msg World.fresh ≠ .ok w1) ∧
    ∃ c, setError result_string msg World.fresh = .error c ∧
      storedStatus c.world result_string = none ∧ c.world.writes = [] := by
  refine ⟨fun w1 h => ?_, ⟨{ fault := .nilBucket, world := World.fresh }, rfl, rfl, rfl⟩⟩
  simp [setError, getPreviousResultFromKVStore, World.fresh, bind, Except.bind] at h

/-- C3, evaluated where it fails: while the bucket does not exist the lookup does not return a
value at all, whatever the key and whatever else the world holds. -/
theorem C3_lookup_without_bucket_panics (key : List Nat) (writes : List (List Nat × String))
    (sent : List String) (requests : List HttpRequest) :
    getPreviousResultFromKVStore key
        { results := none, writes := writes, sent := sent, requests := requests } =
      .error { fault := .nilBucket,
               world := { results := none, writes := writes, sent := sent, requests := requests } } :=
  rfl

/-- C4: when the stored status of a probe is `fail`, any run of N failing observations, status
mismatches and transport errors in any mix, completes, sends nothing, writes nothing, and
leaves the stored status at `fail`; the world is in fact left exactly as it was. -/
theorem C4_sustained_failure_is_silent (result_string : String) (N : Nat)
    (os : List FailOutcome) (_hN : os.length = N) (w : World)
    (hfail : storedStatus w result_string = some TEST_FAIL) :
    ∃ w1, observeFails result_string os w = .ok w1 ∧ w1 = w ∧ w1.sent = w.sent ∧
      w1.writes = w.writes ∧ storedStatus w1 result_string = some TEST_FAIL := by
  have hb : ∃ b, w.results = some b := by
    cases hr : w.results with
    | none => simp [storedStatus, hr] at hfail
    | some b => exact ⟨b, rfl⟩
  obtain ⟨b, hb⟩ := hb
  have key : observeFails result_string os w = .ok w := by
    clear _hN
    induction os with
    | nil => rfl
    | cons o os ih =>
      obtain ⟨w1, h1, h2, _⟩ := observeFail_of_bucket result_string o w b hb
      rw [h2 hfail] at h1
      simp only [observeFails, h1]
      exact ih
  exact ⟨w, key, rfl, rfl, rfl, hfail⟩

/-- C4 at a concrete store: three failing observations on a probe stored as `fail`. -/
theorem C4_sustained_failure_is_silent_witness :
    storedStatus
        { results := some [(getTestKey "GET https://x/health", "fail")],
          writes := [], sent := [], requests := [] }
        "GET https://x/health" = some TEST_FAIL ∧
    ∃ w1, observeFails "GET https://x/health"
        [.mismatch "GET https://x/health returned 503, expected 200",
         .transport "dial tcp: i/o timeout",
         .mismatch "GET https://x/health returned 500, expected 200"]
        { results := some [(getTestKey "GET https://x/health", "fail")],
          writes := [], sent := [], requests := [] } = .ok w1 ∧
      w1 = { results := some [(getTestKey "GET https://x/health", "fail")],
             writes := [], sent := [], requests := [] } ∧
      w1.sent = [] ∧ w1.writes = [] ∧
      storedStatus w1 "GET https://x/health" = some TEST_FAIL :=
  have h : storedStatus
        { results := some [(getTestKey "GET https://x/health", "fail")],
          writes := [], sent := [], requests := [] }
        "GET https://x/health" = some TEST_FAIL := by
    simp [storedStatus, Bucket.Get, List.lookup, TEST_FAIL]
  ⟨h, C4_sustained_failure_is_silent "GET https://x/health" 3
    [.mismatch "GET https://x/health returned 503, expected 200",
     .transport "dial tcp: i/o timeout",
     .mismatch "GET https://x/health returned 500, expected 200"] rfl _ h⟩

/-! ## C5 and C6: probe execution -/

/-- A GET probe whose url text is accepted issues its request and hands the reply on. -/
theorem performGetRequest_of_parses (parses : String → Bool) (env : Environ) (test : AlertTest)
    (reply : Reply) (w : World) (hp : parses (getUrl env test) = true) :
    performGetRequest parses env test reply w =
      match reply with
      | .failure err =>
        checkError (test.Method ++ " " ++ test.Url) (some err)
          { w with requests := w.requests ++ [getRequestOf env test] }
      | .response code =>
        checkResult (test.Method ++ " " ++ test.Url) code test.StatusCode
          { w with requests := w.requests ++ [getRequestOf env test] } := by
  simp only [performGetRequest, hp, if_true, getRequestOf]

/-- A GET probe whose url text is rejected panics on the `nil` request before anything is
issued. -/
theorem performGetRequest_of_not_parses (parses : String → Bool) (env : Environ)
    (test : AlertTest) (reply : Reply) (w : World) (hp : parses (getUrl env test) = false) :
    performGetRequest parses env test reply w = .error { fault := .nilRequest, world := w } := by
  simp [performGetRequest, hp]

/-- A POST probe whose url is accepted issues its request and hands a response on. -/
theorem performPostRequest_of_parses (parses : String → Bool) (env : Environ) (test : AlertTest)
    (reply : Reply) (w : World) (hp : parses test.Url = true) :
    performPostRequest parses env test reply w =
      match reply with
      | .failure _ =>
        .error { fault := .nilResponse,
                 world := { w with requests := w.requests ++
                   [{ method := "POST", url := test.Url, form := postForm env test,
                      basicAuth := basicAuthOf env test }] } }
      | .response code =>
        checkResult (test.Method ++ " " ++ test.Url) code test.StatusCode
          { w with requests := w.requests ++
              [{ method := "POST", url := test.Url, form := postForm env test,
                 basicAuth := basicAuthOf env test }] } := by
  simp only [performPostRequest, hp, if_true]

/-- A POST probe whose url is rejected panics on the `nil` request before anything is issued. -/
theorem performPostRequest_of_not_parses (parses : String → Bool) (env : Environ)
    (test : AlertTest) (reply : Reply) (w : World) (hp : parses test.Url = false) :
    performPostRequest parses env test reply w =
      .error { fault := .nilRequest, world := w } := by
  simp [performPostRequest, hp]

/-- A GET probe whose request is built and fails at the transport level is handed to
`checkError` under the probe's identity, with the error text as the message. -/
theorem performGetRequest_failure (parses : String → Bool) (env : Environ) (test : AlertTest)
    (err : String) (w : World) (hp : parses (getUrl env test) = true) :
    performGetRequest parses env test (.failure err) w =
      checkError (test.Method ++ " " ++ test.Url) (some err)
        { w with requests := w.requests ++ [getRequestOf env test] } := by
  rw [performGetRequest_of_parses parses env test _ w hp]

/-- On a store whose bucket exists, a GET probe whose request is built and fails at the
transport level does not stop the run: the remaining probes are evaluated from the world it
leaves. -/
theorem runTests_get_failure_of_bucket (parses : String → Bool) (env : Environ)
    (test : AlertTest) (err : String) (rest : List (AlertTest × Reply)) (w : World) (b : Bucket)
    (hm : test.Method = "GET") (hp : parses (getUrl env test) = true)
    (hb : w.results = some b) :
    ∃ w1, performGetRequest parses env test (.failure err) w = .ok w1 ∧
      runTests parses env ((test, .failure err) :: rest) w = runTests parses env rest w1 := by
  have hb2 : ({ w with requests := w.requests ++ [getRequestOf env test] } : World).results =
      some b := hb
  obtain ⟨w1, h1, _, _⟩ := observeFail_of_bucket (test.Method ++ " " ++ test.Url)
    (.transport err) _ b hb2
  have h2 : performGetRequest parses env test (.failure err) w = .ok w1 := by
    rw [performGetRequest_failure parses env test err w hp]
    exact h1
  exact ⟨w1, h2, by simp [runTests, hm, h2]⟩

/-- The reduction of a response to a call of the transition engine, with its message. -/
theorem checkResult_eq (result_string : String) (a e : Int) (w : World) :
    checkResult result_string a e w =
      if a = e then setPass result_string (result_string ++ " is now passing") w
      else setError result_string
        (result_string ++ " returned " ++ fmtInt a ++ ", expected " ++ fmtInt e) w := by
  by_cases h : a = e <;> simp [checkResult, h]

/-- On a store whose bucket exists, a GET probe whose request is built and gets a response
completes, and what it sends and stores follows the transition table. -/
theorem performGetRequest_response_of_bucket (parses : String → Bool) (env : Environ)
    (test : AlertTest) (code : Int) (w : World) (b : Bucket)
    (hp : parses (getUrl env test) = true) (hb : w.results = some b) :
    ∃ w1, performGetRequest parses env test (.response code) w = .ok w1 ∧
      (code ≠ test.StatusCode → storedStatus w (test.Method ++ " " ++ test.Url) ≠ some TEST_FAIL →
        w1.sent = w.sent ++ [test.Method ++ " " ++ test.Url ++ " returned " ++ fmtInt code ++
          ", expected " ++ fmtInt test.StatusCode] ∧
        w1.results = some (Bucket.Put b (getTestKey (test.Method ++ " " ++ test.Url)) TEST_FAIL)) ∧
      (code ≠ test.StatusCode → storedStatus w (test.Method ++ " " ++ test.Url) = some TEST_FAIL →
        w1.sent = w.sent ∧ w1.results = w.results) ∧
      (code = test.StatusCode → storedStatus w (test.Method ++ " " ++ test.Url) = some TEST_FAIL →
        w1.sent = w.sent ++ [test.Method ++ " " ++ test.Url ++ " is now passing"] ∧
        w1.results = some (Bucket.Put b (getTestKey (test.Method ++ " " ++ test.Url)) TEST_PASS)) ∧
      (code = test.StatusCode → storedStatus w (test.Method ++ " " ++ test.Url) ≠ some TEST_FAIL →
        w1.sent = w.sent ∧ w1.results = w.results) := by
  have hw : performGetRequest parses env test (.response code) w =
      checkResult (test.Method ++ " " ++ test.Url) code test.StatusCode
        { w with requests := w.requests ++ [getRequestOf env test] } := by
    rw [performGetRequest_of_parses parses env test _ w hp]
  have hb2 : ({ w with requests := w.requests ++ [getRequestOf env test] } : World).results =
      some b := hb
  have hst : storedStatus { w with requests := w.requests ++ [getRequestOf env test] }
      (test.Method ++ " " ++ test.Url) = storedStatus w (test.Method ++ " " ++ test.Url) := rfl
  rw [hw, checkResult_eq]
  by_cases hc : code = test.StatusCode
  · obtain ⟨w1, h1, h2, h3⟩ := setPass_transition_of_bucket (test.Method ++ " " ++ test.Url)
      (test.Method ++ " " ++ test.Url ++ " is now passing") _ b hb2
    rw [hst] at h2 h3
    refine ⟨w1, by simp only [hc, if_true] at h1 ⊢; exact h1, fun h => absurd hc h,
      fun h => absurd hc h, fun _ hs => ⟨(h3 hs).1, (h3 hs).2.2.1⟩, fun _ hs => ?_⟩
    rw [h2 hs]
    exact ⟨rfl, rfl⟩
  · obtain ⟨w1, h1, h2, h3⟩ := observeFail_of_bucket (test.Method ++ " " ++ test.Url)
      (.mismatch (test.Method ++ " " ++ test.Url ++ " returned " ++ fmtInt code ++
          ", expected " ++ fmtInt test.StatusCode)) _ b hb2
    rw [hst] at h2 h3
    refine ⟨w1, by simp only [hc, if_false]; exact h1, fun _ hs => ⟨(h3 hs).1, (h3 hs).2.2.1⟩,
      fun _ hs => ?_, fun h => absurd h hc, fun h => absurd h hc⟩
    rw [h2 hs]
    exact ⟨rfl, rfl⟩

theorem runTests_cons_get (parses : String → Bool) (env : Environ) (test : AlertTest)
    (reply : Reply) (rest : List (AlertTest × Reply)) (w w1 : World) (hm : test.Method = "GET")
    (h : performGetRequest parses env test reply w = .ok w1) :
    runTests parses env ((test, reply) :: rest) w = runTests parses env rest w1 := by
  simp [runTests, hm, h]

/-- The end-to-end scenario on a store whose bucket exists and holds nothing for the probe,
the url text of the probe being accepted: the responses 503, 200, 200 send the failure
message, then the recovery message, then nothing. -/
theorem scenario_of_bucket (parses : String → Bool) (w : World) (b : Bucket)
    (hp : parses "https://x/health?" = true) (hb : w.results = some b)
    (hs : storedStatus w "GET https://x/health" = none) :
    ∃ w1, runTests parses []
        [(healthProbe, .response 503), (healthProbe, .response 200), (healthProbe, .response 200)]
        w = .ok w1 ∧
      w1.sent = w.sent ++ ["GET https://x/health returned 503, expected 200",
                           "GET https://x/health is now passing"] := by
  have hu : getUrl [] healthProbe = "https://x/health?" := by decide
  have hp2 : parses (getUrl [] healthProbe) = true := by rw [hu]; exact hp
  have hrs : healthProbe.Method ++ " " ++ healthProbe.Url = "GET https://x/health" := by decide
  have hm1 : "GET https://x/health" ++ " returned " ++ fmtInt 503 ++ ", expected " ++
      fmtInt healthProbe.StatusCode = "GET https://x/health returned 503, expected 200" := by
    decide
  have hm2 : "GET https://x/health" ++ " is now passing" =
      "GET https://x/health is now passing" := by decide
  have hne : (503 : Int) ≠ healthProbe.StatusCode := by decide
  have heq : (200 : Int) = healthProbe.StatusCode := rfl
  obtain ⟨w1, r1, t1, -, -, -⟩ :=
    performGetRequest_response_of_bucket parses [] healthProbe 503 w b hp2 hb
  rw [hrs] at t1
  obtain ⟨s1, b1⟩ := t1 hne (by rw [hs]; simp)
  have st1 : storedStatus w1 "GET https://x/health" = some TEST_FAIL := by
    simp [storedStatus, b1, Bucket.Get_Put_same]
  obtain ⟨w2, r2, -, -, t2, -⟩ :=
    performGetRequest_response_of_bucket parses [] healthProbe 200 w1 _ hp2 b1
  rw [hrs] at t2
  obtain ⟨s2, b2⟩ := t2 heq st1
  have st2 : storedStatus w2 "GET https://x/health" ≠ some TEST_FAIL := by
    simp [storedStatus, b2, Bucket.Get_Put_same, TEST_PASS, TEST_FAIL]
  obtain ⟨w3, r3, -, -, -, t3⟩ :=
    performGetRequest_response_of_bucket parses [] healthProbe 200 w2 _ hp2 b2
  rw [hrs] at t3
  obtain ⟨s3, -⟩ := t3 heq st2
  refine ⟨w3, ?_, ?_⟩
  · rw [runTests_cons_get _ _ _ _ _ _ _ rfl r1, runTests_cons_get _ _ _ _ _ _ _ rfl r2,
      runTests_cons_get _ _ _ _ _ _ _ rfl r3]
    rfl
  · rw [s3, s2, s1, hm1, hm2]
    simp

/-- While the bucket does not exist a run cannot create it: either every probe is skipped for
its method and the world is left as it was, or the run panics at its first GET or POST probe,
with nothing sent and nothing stored. -/
theorem runTests_without_bucket (parses : String → Bool) (env : Environ)
    (tests : List (AlertTest × Reply)) (w : World) (hb : w.results = none) :
    runTests parses env tests w = .ok w ∨
    ∃ c, runTests parses env tests w = .error c ∧ c.world.results = none ∧
      c.world.sent = w.sent ∧ c.world.writes = w.writes := by
  induction tests with
  | nil => exact Or.inl rfl
  | cons t rest ih =>
    obtain ⟨test, reply⟩ := t
    by_cases hg : test.Method = "GET"
    · refine Or.inr ?_
      cases hp : parses (getUrl env test) with
      | false => simp [runTests, hg, performGetRequest, hp, hb]
      | true =>
        cases reply with
        | response code =>
          by_cases hc : code = test.StatusCode <;>
            simp [runTests, hg, performGetRequest, hp, checkResult, setError, setPass,
              getPreviousResultFromKVStore, hb, hc, bind, Except.bind]
        | failure err =>
          simp [runTests, hg, performGetRequest, hp, checkError, getPreviousResultFromKVStore,
            hb, bind, Except.bind]
    · by_cases hq : test.Method = "POST"
      · refine Or.inr ?_
        cases hp : parses test.Url with
        | false => simp [runTests, hq, performPostRequest, hp, hb]
        | true =>
          cases reply with
          | response code =>
            by_cases hc : code = test.StatusCode <;>
              simp [runTests, hq, performPostRequest, hp, checkResult, setError, setPass,
                getPreviousResultFromKVStore, hb, hc, bind, Except.bind]
          | failure err =>
            simp [runTests, hq, performPostRequest, hp, hb]
      · simpa [runTests, hg, hq] using ih

/-- C5, evaluated where it fails: a POST probe whose request fails at the transport level
panics on the `nil` response (and one whose url is rejected panics even earlier, on the `nil`
request); the run ends there, whatever probes are left in the list, and nothing has been sent
or stored for the failed probe. -/
theorem C5_post_transport_failure_aborts_the_run (parses : String → Bool) (env : Environ)
    (url : String) (code : Int) (params : List AlertParameters) (auth : Bool) (err : String)
    (rest : List (AlertTest × Reply)) (w : World) :
    ∃ c, runTests parses env
        (({ Url := url, StatusCode := code, Parameters := params, Method := "POST",
            BasicAuth := auth }, Reply.failure err) :: rest) w = .error c ∧
      c.fault = (if parses url then .nilResponse else .nilRequest) ∧
      c.world.sent = w.sent ∧ c.world.writes = w.writes ∧ c.world.results = w.results := by
  cases hp : parses url with
  | true =>
    refine ⟨{ fault := .nilResponse,
              world := { w with requests := w.requests ++
                [{ method := "POST", url := url,
                   form := postForm env { Url := url, StatusCode := code, Parameters := params,
                                          Method := "POST", BasicAuth := auth },
                   basicAuth := basicAuthOf env { Url := url, StatusCode := code,
                                                  Parameters := params, Method := "POST",
                                                  BasicAuth := auth } }] } },
      ?_, rfl, rfl, rfl, rfl⟩
    simp [runTests, performPostRequest, hp]
  | false =>
    refine ⟨{ fault := .nilRequest, world := w }, ?_, rfl, rfl, rfl, rfl⟩
    simp [runTests, performPostRequest, hp]

/-- C6, evaluated where it fails: on the store of a first run the scenario 503, 200, 200 dies
on the first response with a panic on the missing bucket (the url text of the probe being
accepted, as it is), and no notification has been sent. -/
theorem C6_scenario_on_fresh_store_sends_nothing (parses : String → Bool) :
    ∃ c, runTests parses []
        [(healthProbe, .response 503), (healthProbe, .response 200), (healthProbe, .response 200)]
        World.fresh = .error c ∧
      c.fault = (if parses "https://x/health?" then .nilBucket else .nilRequest) ∧
      c.world.sent = [] ∧ c.world.results = none := by
  have hu : getUrl [] healthProbe = "https://x/health?" := by decide
  have hm : healthProbe.Method = "GET" := rfl
  cases hp : parses "https://x/health?" with
  | true =>
    refine ⟨{ fault := .nilBucket,
              world := { World.fresh with requests := [getRequestOf [] healthProbe] } },
      ?_, rfl, rfl, rfl⟩
    have h1 : performGetRequest parses [] healthProbe (.response 503) World.fresh =
        .error { fault := .nilBucket,
                 world := { World.fresh with requests := [getRequestOf [] healthProbe] } } := by
      rw [performGetRequest_of_parses parses [] healthProbe _ _ (by rw [hu]; exact hp)]
      rfl
    simp only [runTests, hm, if_true, h1]
  | false =>
    refine ⟨{ fault := .nilRequest, world := World.fresh }, ?_, rfl, rfl, rfl⟩
    have h1 : performGetRequest parses [] healthProbe (.response 503) World.fresh =
        .error { fault := .nilRequest, world := World.fresh } :=
      performGetRequest_of_not_parses parses [] healthProbe _ _ (by rw [hu]; exact hp)
    simp only [runTests, hm, if_true, h1]

/-! ## C8: the query string of a GET probe -/

/-- C8, evaluated where it fails: the value `a&b=c` is written into the url as it is, so the
probe with the single parameter `q = a&b=c` and the probe with the two parameters `q = a`,
`b = c` build the same url, from which no decoding can give back both parameter lists. -/
theorem C8_get_url_is_not_encoded :
    getUrl []
        { Url := "https://x/health", StatusCode := 200,
          Parameters := [{ Key := "q", Value := "a&b=c", EnvVar := false }],
          Method := "GET", BasicAuth := false } = "https://x/health?q=a&b=c&" ∧
    getUrl []
        { Url := "https://x/health", StatusCode := 200,
          Parameters := [{ Key := "q", Value := "a", EnvVar := false },
                         { Key := "b", Value := "c", EnvVar := false }],
          Method := "GET", BasicAuth := false } = "https://x/health?q=a&b=c&" := by
  constructor <;> decide

/-! ## C10: probes that share an identity -/

/-- On a store whose bucket exists and where the identity is not stored as `fail`, every one of
the `2 * n` alternating observations sends a notification. -/
theorem alternate_of_bucket (result_string failMsg passMsg : String) (n : Nat) :
    ∀ (w : World) (b : Bucket), w.results = some b →
      storedStatus w result_string ≠ some TEST_FAIL →
      ∃ w1, alternate result_string failMsg passMsg n w = .ok w1 ∧
        w1.sent.length = w.sent.length + 2 * n := by
  induction n with
  | zero => exact fun w _ _ _ => ⟨w, rfl, rfl⟩
  | succ n ih =>
    intro w b hb hs
    obtain ⟨w1, h1, _, h1b⟩ := observeFail_of_bucket result_string (.mismatch failMsg) w b hb
    obtain ⟨hsent1, _, hres1, _⟩ := h1b hs
    have hs1 : storedStatus w1 result_string = some TEST_FAIL := by
      simp [storedStatus, hres1, Bucket.Get_Put_same]
    obtain ⟨w2, h2, _, h2b⟩ := setPass_transition_of_bucket result_string passMsg w1 _ hres1
    obtain ⟨hsent2, _, hres2, _⟩ := h2b hs1
    have hs2 : storedStatus w2 result_string ≠ some TEST_FAIL := by
      simp [storedStatus, hres2, Bucket.Get_Put_same, TEST_PASS, TEST_FAIL]
    obtain ⟨w3, h3, hlen⟩ := ih w2 _ hres2 hs2
    refine ⟨w3, ?_, ?_⟩
    · simp only [observeFail] at h1
      simp only [alternate, h1, h2, h3]
    · rw [hlen, hsent2, hsent1]
      simp only [List.length_append, List.length_singleton]
      omega

/-- C10, evaluated where it fails: on the store of a first run the alternation dies on its
first observation, so that no notification at all is sent instead of `2 * (n + 1)`. -/
theorem C10_alternation_on_fresh_store_sends_nothing (result_string failMsg passMsg : String)
    (n : Nat) :
    storedStatus World.fresh result_string = none ∧
    alternate result_string failMsg passMsg (n + 1) World.fresh =
      .error { fault := .nilBucket, world := World.fresh } ∧
    World.fresh.sent.length = 0 :=
  ⟨rfl, rfl, rfl⟩

/-! ## C7: parameter resolution -/

theorem paramValue_eq (env : Environ) (p : AlertParameters) :
    (if p.EnvVar then Getenv env p.Value else p.Value) = specResolvedValue env p := by
  cases h : p.EnvVar <;> simp [specResolvedValue, Getenv, h]

theorem getUrl_foldl (env : Environ) (ps : List AlertParameters) :
    ∀ init : String,
      ps.foldl
        (fun get_url param =>
          let value := if param.EnvVar then Getenv env param.Value else param.Value
          get_url ++ (param.Key ++ "=" ++ value ++ "&"))
        init = init ++ specQuery env ps := by
  induction ps with
  | nil => intro init; simp [specQuery]
  | cons p ps ih =>
    intro init
    rw [List.foldl_cons, ih]
    simp only [specQuery, paramValue_eq, String.append_assoc]

theorem Values.mem_Set (form : Values) (key value k : String) (vs : List String)
    (h : (k, vs) ∈ Values.Set form key value) :
    (k, vs) ∈ form ∨ (k = key ∧ vs = [value]) := by
  induction form with
  | nil => simpa [Values.Set] using h
  | cons e rest ih =>
    obtain ⟨k0, v0⟩ := e
    by_cases h0 : k0 = key
    · simp only [Values.Set, h0, if_true, List.mem_cons, Prod.mk.injEq] at h
      rcases h with h | h
      · exact Or.inr h
      · exact Or.inl (List.mem_cons_of_mem _ h)
    · simp only [Values.Set, h0, if_false, List.mem_cons] at h
      rcases h with h | h
      · exact Or.inl (by rw [h]; exact List.mem_cons_self _ _)
      · rcases ih h with h | h
        · exact Or.inl (List.mem_cons_of_mem _ h)
        · exact Or.inr h

theorem Values.lookupAll_Set_same (form : Values) (key value : String) :
    (Values.Set form key value).lookupAll key = some [value] := by
  induction form with
  | nil => simp [Values.Set, Values.lookupAll, List.lookup]
  | cons e rest ih =>
    obtain ⟨k, v⟩ := e
    by_cases h : k = key
    · simp [Values.Set, Values.lookupAll, List.lookup, h]
    · have h2 : (key == k) = false := by simpa using fun h3 => h h3.symm
      simp only [Values.lookupAll] at ih
      simp [Values.Set, Values.lookupAll, List.lookup, h, h2, ih]

theorem Values.lookupAll_Set_other (form : Values) (key other value : String)
    (hne : other ≠ key) : (Values.Set form key value).lookupAll other = form.lookupAll other := by
  induction form with
  | nil =>
    have h2 : (other == key) = false := by simpa using hne
    simp [Values.Set, Values.lookupAll, List.lookup, h2]
  | cons e rest ih =>
    obtain ⟨k, v⟩ := e
    simp only [Values.lookupAll] at ih
    by_cases h : k = key
    · subst h
      have h2 : (other == k) = false := by simpa using hne
      simp [Values.Set, Values.lookupAll, List.lookup, h2]
    · by_cases h3 : other = k
      · subst h3
        simp [Values.Set, Values.lookupAll, List.lookup, h]
      · have h4 : (other == k) = false := by simpa using h3
        simp [Values.Set, Values.lookupAll, List.lookup, h, h4, ih]

theorem postForm_foldl_mem (env : Environ) (ps : List AlertParameters) :
    ∀ (form : Values) (k : String) (vs : List String),
      (k, vs) ∈ ps.foldl
        (fun form param =>
          let value := if param.EnvVar then Getenv env param.Value else param.Value
          Values.Set form param.Key value)
        form →
      (k, vs) ∈ form ∨ ∃ p ∈ ps, p.Key = k ∧ vs = [specResolvedValue env p] := by
  induction ps with
  | nil => intro form k vs h; exact Or.inl h
  | cons p ps ih =>
    intro form k vs h
    simp only [List.foldl_cons, paramValue_eq] at h ih
    rcases ih _ k vs h with h1 | ⟨q, hq, hk, hv⟩
    · rcases Values.mem_Set _ _ _ _ _ h1 with h2 | ⟨h2, h3⟩
      · exact Or.inl h2
      · exact Or.inr ⟨p, List.mem_cons_self _ _, h2.symm, h3⟩
    · exact Or.inr ⟨q, List.mem_cons_of_mem _ hq, hk, hv⟩

theorem postForm_foldl_lookup (env : Environ) (qs : List AlertParameters) :
    ∀ (form : Values) (k : String), (∀ q ∈ qs, q.Key ≠ k) →
      (qs.foldl
        (fun form param =>
          let value := if param.EnvVar then Getenv env param.Value else param.Value
          Values.Set form param.Key value)
        form).lookupAll k = form.lookupAll k := by
  induction qs with
  | nil => intro form k _; rfl
  | cons q qs ih =>
    intro form k h
    simp only [List.foldl_cons]
    rw [ih _ k (fun x hx => h x (List.mem_cons_of_mem _ hx))]
    exact Values.lookupAll_Set_other _ _ _ _ (fun hk => h q (List.mem_cons_self _ _) hk.symm)

/-- The requests a world or a crash has on record. -/
theorem engine_keeps_requests (result_string msg : String) (w : World) :
    (match setError result_string msg w with
      | .ok w1 => w1.requests
      | .error c => c.world.requests) = w.requests ∧
    (match setPass result_string msg w with
      | .ok w1 => w1.requests
      | .error c => c.world.requests) = w.requests ∧
    (match checkError result_string (some msg) w with
      | .ok w1 => w1.requests
      | .error c => c.world.requests) = w.requests := by
  cases hr : w.results with
  | none =>
    simp [setError, setPass, checkError, getPreviousResultFromKVStore, hr, bind, Except.bind]
  | some b =>
    rw [setError_of_bucket _ _ _ b hr, setPass_of_bucket _ _ _ b hr,
      checkError_of_bucket _ _ _ b hr]
    by_cases h : b.Get (getTestKey result_string) = some TEST_FAIL <;>
      simp [h, sendAlertingMessage, setResultInKVStore]

/-- The form of a POST probe, read at any name: the value of the last parameter carrying the
name, when there is one, and otherwise what the form held before. -/
theorem postForm_foldl_last (env : Environ) (ps : List AlertParameters) :
    ∀ (form : Values) (k : String),
      (ps.foldl
        (fun form param =>
          let value := if param.EnvVar then Getenv env param.Value else param.Value
          Values.Set form param.Key value)
        form).lookupAll k =
      match lastWithKey ps k with
      | some q => some [specResolvedValue env q]
      | none => form.lookupAll k := by
  induction ps with
  | nil => intro form k; rfl
  | cons p ps ih =>
    intro form k
    rw [List.foldl_cons, ih]
    cases hl : lastWithKey ps k with
    | some q => simp [lastWithKey, hl]
    | none =>
      by_cases hk : p.Key = k
      · subst hk
        simp only [lastWithKey, hl, if_true, paramValue_eq]
        exact Values.lookupAll_Set_same _ _ _
      · simp only [lastWithKey, hl, hk, if_false]
        exact Values.lookupAll_Set_other _ _ _ _ (fun h => hk h.symm)

/-- Whatever the reply, a GET probe issues exactly one request, to the url text built by
`getUrl`, when that text is accepted, and none when it is rejected. -/
theorem performGetRequest_requests (parses : String → Bool) (env : Environ) (test : AlertTest)
    (reply : Reply) (w : World) :
    (match performGetRequest parses env test reply w with
      | .ok w1 => w1.requests
      | .error c => c.world.requests) =
      w.requests ++ (if parses (getUrl env test) then [getRequestOf env test] else []) := by
  cases hp : parses (getUrl env test) with
  | false => simp [performGetRequest_of_not_parses parses env test reply w hp]
  | true =>
    rw [performGetRequest_of_parses parses env test reply w hp]
    simp only [if_true]
    cases reply with
    | failure err =>
      exact (engine_keeps_requests (test.Method ++ " " ++ test.Url) err
        { w with requests := w.requests ++ [getRequestOf env test] }).2.2
    | response code =>
      simp only [checkResult_eq]
      by_cases hc : code = test.StatusCode
      · simp only [hc, if_true]
        exact (engine_keeps_requests _ _ _).2.1
      · simp only [hc, if_false]
        exact (engine_keeps_requests _ _ _).1

/-- Whatever the reply, a POST probe issues exactly one request, carrying the form built by
`postForm`, when its url is accepted, and none when it is rejected. -/
theorem performPostRequest_requests (parses : String → Bool) (env : Environ) (test : AlertTest)
    (reply : Reply) (w : World) :
    (match performPostRequest parses env test reply w with
      | .ok w1 => w1.requests
      | .error c => c.world.requests) =
      w.requests ++ (if parses test.Url then
        [{ method := "POST", url := test.Url, form := postForm env test,
           basicAuth := basicAuthOf env test }] else []) := by
  cases hp : parses test.Url with
  | false => simp [performPostRequest_of_not_parses parses env test reply w hp]
  | true =>
    rw [performPostRequest_of_parses parses env test reply w hp]
    simp only [if_true]
    cases reply with
    | failure err => rfl
    | response code =>
      simp only [checkResult_eq]
      by_cases hc : code = test.StatusCode
      · simp only [hc, if_true]
        exact (engine_keeps_requests _ _ _).2.1
      · simp only [hc, if_false]
        exact (engine_keeps_requests _ _ _).1

theorem beBytes_length (n x : Nat) : (beBytes n x).length = n := by
  simp [beBytes]

theorem beBytes_lt (n x b : Nat) (h : b ∈ beBytes n x) : b < 256 := by
  simp only [beBytes, List.mem_map] at h
  obtain ⟨i, _, rfl⟩ := h
  exact Nat.mod_lt _ (by decide)

theorem sha1Sum_length (msg : List Nat) : (sha1Sum msg).length = 20 := by
  simp [sha1Sum, beBytes_length]

theorem sha1Sum_lt (msg : List Nat) (b : Nat) (h : b ∈ sha1Sum msg) : b < 256 := by
  simp only [sha1Sum, List.mem_append] at h
  rcases h with (((h | h) | h) | h) | h <;> exact beBytes_lt _ _ _ h

theorem getTestKey_length (s : String) : (getTestKey s).length = 20 :=
  sha1Sum_length _

theorem getTestKey_lt (s : String) (b : Nat) (h : b ∈ getTestKey s) : b < 256 :=
  sha1Sum_lt _ b h

/-- Two keys that agree byte by byte are equal. -/
theorem getTestKey_ext (s t : String)
    (h : ∀ i : Fin 20, (getTestKey s).getD i 0 = (getTestKey t).getD i 0) :
    getTestKey s = getTestKey t := by
  apply List.ext_getElem
  · rw [getTestKey_length, getTestKey_length]
  · intro n h1 h2
    have hn : n < 20 := by rw [getTestKey_length] at h1; exact h1
    have := h ⟨n, hn⟩
    simpa [List.getD_eq_getElem, h1, h2] using this

/-- Different choices of letters give different urls. -/
theorem abUrl_injective (u v : Fin 161 → Bool) (h : "GET " ++ abUrl u = "GET " ++ abUrl v) :
    u = v := by
  have h1 := congrArg String.data h
  simp only [abUrl, String.data_append, List.append_cancel_left_eq] at h1
  have h2 := List.ofFn_injective h1
  funext i
  have h3 := congrFun h2 i
  cases hu : u i <;> cases hv : v i <;> simp [hu, hv] at h3 ⊢

/-- Among the GET identities whose url is `https://x/` followed by 161 letters `a` or `b`, two
different ones have the same key: there are `2 ^ 161` of them and only `2 ^ 160` keys. -/
theorem exists_get_identity_collision :
    ∃ u v : Fin 161 → Bool, "GET " ++ abUrl u ≠ "GET " ++ abUrl v ∧
      getTestKey ("GET " ++ abUrl u) = getTestKey ("GET " ++ abUrl v) := by
  let f : (Fin 161 → Bool) → (Fin 20 → Fin 256) := fun u i =>
    ⟨(getTestKey ("GET " ++ abUrl u)).getD i 0 % 256, Nat.mod_lt _ (by decide)⟩
  have hcard : Fintype.card (Fin 20 → Fin 256) < Fintype.card (Fin 161 → Bool) := by
    simp only [Fintype.card_fun, Fintype.card_fin, Fintype.card_bool]
    norm_num
  obtain ⟨u, v, huv, hf⟩ := Fintype.exists_ne_map_eq_of_card_lt f hcard
  refine ⟨u, v, fun h => huv (abUrl_injective u v h), getTestKey_ext _ _ fun i => ?_⟩
  have hi := congrArg Fin.val (congrFun hf i)
  have lt : ∀ s : String, (getTestKey s).getD i 0 < 256 := by
    intro s
    have hlen : (i : Nat) < (getTestKey s).length := by rw [getTestKey_length]; exact i.isLt
    rw [List.getD_eq_getElem _ _ hlen]
    exact getTestKey_lt s _ (List.getElem_mem _)
  have hi2 : (getTestKey ("GET " ++ abUrl u)).getD i 0 % 256 =
      (getTestKey ("GET " ++ abUrl v)).getD i 0 % 256 := hi
  rw [Nat.mod_eq_of_lt (lt _), Nat.mod_eq_of_lt (lt _)] at hi2
  exact hi2

/-- The key of the identity of the end-to-end scenario, as the SHA-1 digest it is. -/
theorem getTestKey_health :
    getTestKey "GET https://x/health" =
      [0x30, 0xdc, 0x69, 0xe3, 0x13, 0x48, 0xf1, 0xbe, 0xb8, 0xe9, 0x2d, 0xec, 0x4d, 0xa4, 0x4b,
       0x4e, 0x55, 0x03, 0x40, 0x98] := by
  set_option maxRecDepth 100000 in decide

/-- The GET and the POST probe of one url are kept under different keys. -/
theorem getTestKey_health_get_ne_post :
    getTestKey "GET https://x/health" ≠ getTestKey "POST https://x/health" := by
  set_option maxRecDepth 100000 in decide

/-- The SHA-1 test vector of the empty string. -/
theorem getTestKey_empty :
    getTestKey "" = [0xda, 0x39, 0xa3, 0xee, 0x5e, 0x6b, 0x4b, 0x0d, 0x32, 0x55, 0xbf, 0xef,
      0x95, 0x60, 0x18, 0x90, 0xaf, 0xd8, 0x07, 0x09] := by
  set_option maxRecDepth 100000 in decide

/-- The SHA-1 test vector of `abc`. -/
theorem getTestKey_abc :
    getTestKey "abc" = [0xa9, 0x99, 0x3e, 0x36, 0x47, 0x06, 0x81, 0x6a, 0xba, 0x3e, 0x25, 0x71,
      0x78, 0x50, 0xc2, 0x6c, 0x9c, 0xd0, 0xd8, 0x9d] := by
  set_option maxRecDepth 100000 in decide

end Golert
